import Mathlib

/-!
Verification development for the TCSGO price-refresher service
(`services/price-refresher.py`).  The Python source is shallowly embedded:
machine floats are modelled as exact rationals (`ℚ`), Python `None` results
as `Option`, mutating methods as functions returning the updated state, and
Python strings as Lean `String`s manipulated through `List Char` helpers
that mirror `str.split` / `str.strip` / `str.lower` / `str.upper`.
-/

namespace TCSGO

/-! ### Python string helpers (`str.split("|")`, `str.strip()`, `str.lower()`, `str.upper()`) -/

/-- `s.split("|")`: split on every occurrence of the pipe character. -/
def pySplitPipe (s : String) : List String :=
  (s.data.splitOn '|').map (fun l => String.mk l)

/-- Drop leading and trailing whitespace from a character list. -/
def trimChars (l : List Char) : List Char :=
  ((l.dropWhile Char.isWhitespace).reverse.dropWhile Char.isWhitespace).reverse

/-- `s.strip()`. -/
def pyStrip (s : String) : String := String.mk (trimChars s.data)

/-- `s.lower()`. -/
def pyLower (s : String) : String := String.mk (s.data.map Char.toLower)

/-- `s.upper()`. -/
def pyUpper (s : String) : String := String.mk (s.data.map Char.toUpper)

/-! ### Utilities from the source (`clamp`, `money_round`, `jitter`) -/

/-- `clamp(n, lo, hi) = max(lo, min(hi, n))`. -/
def clamp (n lo hi : ℚ) : ℚ := max lo (min hi n)

/-- `money_round(v) = float(f"{v:.2f}")`: round to 2 decimals.  The exact
tie behaviour of CPython's float formatting (round-half-even on the binary
double) is modelled as round-to-nearest; no statement below sits on a tie. -/
def money_round (v : ℚ) : ℚ := ((round (v * 100) : ℤ) : ℚ) / 100

/-- `jitter(seconds, pct=0.15) = max(0.0, seconds + random.uniform(-delta, delta))`
with `delta = seconds * pct`.  The sampled uniform value is passed in as `u`;
callers constrain `|u| ≤ pct * seconds`. -/
def jitter (seconds u : ℚ) : ℚ := max 0 (seconds + u)

/-! ### `aggregate_prices` (source lines 227-236) -/

/-- Stable ascending insertion of one element, used to model Python `sorted`. -/
def insertSorted (x : ℚ) : List ℚ → List ℚ
  | [] => [x]
  | y :: ys => if x ≤ y then x :: y :: ys else y :: insertSorted x ys

/-- `sorted(prices)`: ascending sort.  On `ℚ` every sorted permutation of a
list is the same list, so insertion sort models Python's Timsort exactly. -/
def sortAsc (l : List ℚ) : List ℚ := l.foldr insertSorted []

/-- `aggregate_prices(prices, method)`: `None` on an empty list; the median
(average of the two middle values of the sorted list when the length is
even) when `method == "median"`; otherwise the arithmetic mean. -/
def aggregate_prices (prices : List ℚ) (method : String) : Option ℚ :=
  if prices = [] then none
  else if method = "median" then
    let s := sortAsc prices
    let mid := s.length / 2
    if s.length % 2 = 0 then some ((s.getD (mid - 1) 0 + s.getD mid 0) / 2)
    else some (s.getD mid 0)
  else some (prices.sum / (prices.length : ℚ))

/-! ### `ProviderState` (source lines 958-1003) -/

/-- Per-provider availability state.  Times are epoch seconds as `ℚ`;
counters are Python ints (`ℤ`). -/
structure ProviderState where
  name : String
  enabled : Bool
  cooldown_until : ℚ := 0
  consecutive_hard_failures : ℤ := 0
  skip_rounds_remaining : ℤ := 0
deriving DecidableEq

/-- `is_available(now_ts)`: returns the boolean result together with the
(possibly reset) state, since the method mutates `self` when the cooldown
has expired. -/
def ProviderState.is_available (s : ProviderState) (now_ts : ℚ) : Bool × ProviderState :=
  if s.enabled = false then (false, s)
  else if s.cooldown_until ≤ 0 then (true, s)
  else if s.cooldown_until ≤ now_ts then
    (true, { s with cooldown_until := 0, consecutive_hard_failures := 0 })
  else (false, s)

/-- `should_skip_round()`: consumes one skip round when any remain. -/
def ProviderState.should_skip_round (s : ProviderState) : Bool × ProviderState :=
  if 0 < s.skip_rounds_remaining then
    (true, { s with skip_rounds_remaining := s.skip_rounds_remaining - 1 })
  else (false, s)

/-- `record_failure(skip_rounds)`:
`skip_rounds_remaining = max(skip_rounds_remaining, max(0, skip_rounds))`. -/
def ProviderState.record_failure (s : ProviderState) (skip_rounds : ℤ) : ProviderState :=
  { s with skip_rounds_remaining := max s.skip_rounds_remaining (max 0 skip_rounds) }

/-- `record_success()`: resets the hard-failure counter. -/
def ProviderState.record_success (s : ProviderState) : ProviderState :=
  { s with consecutive_hard_failures := 0 }

/-- `record_hard_failure(now_ts, fail_threshold, cooldown_seconds)`:
increments the counter and enters cooldown once the threshold is reached. -/
def ProviderState.record_hard_failure (s : ProviderState) (now_ts : ℚ)
    (fail_threshold : ℤ) (cooldown_seconds : ℚ) : ProviderState :=
  let s1 : ProviderState :=
    { s with consecutive_hard_failures := s.consecutive_hard_failures + 1 }
  if fail_threshold ≤ s1.consecutive_hard_failures then
    { s1 with cooldown_until := now_ts + cooldown_seconds, consecutive_hard_failures := 0 }
  else s1

/-! ### Market hash name building (source lines 1010-1033) -/

/-- `build_item_market_hash(display_name, wear, is_stattrak)`. -/
def build_item_market_hash (display_name wear : String) (is_stattrak : Bool) : String :=
  let p := if is_stattrak then "StatTrak™ " else ""
  if wear ≠ "" ∧ ¬ (pyLower wear = "none" ∨ pyLower wear = "na" ∨ pyLower wear = "n/a") then
    p ++ display_name ++ " (" ++ wear ++ ")"
  else p ++ display_name

/-- `parse_item_key(item_key)`: `<itemId>|<wear>|<statTrak01>|<variant>`,
rejecting keys that do not split into exactly four parts. -/
def parse_item_key (item_key : String) : Option (String × String × Bool × String) :=
  if item_key = "" then none
  else
    let parts := pySplitPipe item_key
    if parts.length ≠ 4 then none
    else
      let item_id := pyStrip (parts.getD 0 "")
      let wear := pyStrip (parts.getD 1 "")
      let st := pyLower (pyStrip (parts.getD 2 ""))
      let variant := pyStrip (parts.getD 3 "")
      some (item_id, wear, decide (st = "1" ∨ st = "true" ∨ st = "yes" ∨ st = "y"), variant)

/-! ### Staleness gate (source lines 1209-1232, 1545-1550) -/

/-- The `force_price_threshold is not None and existing_price is not None
and existing_price <= force_price_threshold` test. -/
def threshold_hit (existing_price force_price_threshold : Option ℚ) : Bool :=
  match force_price_threshold, existing_price with
  | some th, some p => decide (p ≤ th)
  | _, _ => false

/-- `should_refresh(updated_at_iso, max_age_hours, force, existing_price,
force_price_threshold)` at a fixed wall clock `now_utc` (epoch seconds).
The ISO timestamp is modelled after parsing: outer `none` = missing/empty
string, `some none` = string that `parse_iso_dt` rejects, `some (some dt)` =
parsed timestamp in epoch seconds. -/
def should_refresh (updated_at_iso : Option (Option ℚ)) (max_age_hours : ℚ)
    (force : Bool) (existing_price force_price_threshold : Option ℚ)
    (now_utc : ℚ) : Bool :=
  if force then true
  else if threshold_hit existing_price force_price_threshold then true
  else
    match updated_at_iso with
    | none => true
    | some none => true
    | some (some dt) => decide (max_age_hours ≤ (now_utc - dt) / 3600)

/-- `refresh_once` lines 1545-1550: `maxAgeDays` takes precedence over
`maxAgeHours` (`hours = days * 24`), then `max(0.0, ·)`. -/
def effective_max_age_hours (max_age_days : Option ℚ) (max_age_hours_cfg : ℚ) : ℚ :=
  max 0 (match max_age_days with
    | some d => d * 24
    | none => max_age_hours_cfg)

/-! ### Bulk aggregation (`bulk_price_for`, source lines 1583-1595) -/

/-- One price per bulk source that has the market name (`source_prices.get`). -/
def bulk_lookup_vals (bulk_sources : List (List (String × ℚ))) (market_hash : String) :
    List ℚ :=
  bulk_sources.filterMap (fun src => List.lookup market_hash src)

/-- `bulk_price_for(market_hash)`: require `agg_min_sources` values, then
aggregate, clamp, and round; also returns the number of sources found. -/
def bulk_price_for (bulk_sources : List (List (String × ℚ))) (agg_min_sources : ℕ)
    (agg_method : String) (agg_clamp_min agg_clamp_max : ℚ) (market_hash : String) :
    Option ℚ × ℕ :=
  let vals := bulk_lookup_vals bulk_sources market_hash
  if vals.length < agg_min_sources then (none, vals.length)
  else
    match aggregate_prices vals agg_method with
    | none => (none, vals.length)
    | some agg => (some (money_round (clamp agg agg_clamp_min agg_clamp_max)), vals.length)

/-- Definition following the spec's words (section 4.2), for comparison with
`bulk_price_for`: at least `minSources` values or no consensus; mean or
median (median of an even-length list = average of the two middle values of
the sorted list); clamp to `[lo, hi]`; round to 2 decimals. -/
def consensus_spec (vals : List ℚ) (min_sources : ℕ) (method : String) (lo hi : ℚ) :
    Option ℚ :=
  if vals.length < min_sources then none
  else
    let s := sortAsc vals
    let median := if s.length % 2 = 0 then
        (s.getD (s.length / 2 - 1) 0 + s.getD (s.length / 2) 0) / 2
      else s.getD (s.length / 2) 0
    let mean := vals.sum / (vals.length : ℚ)
    some (money_round (clamp (if method = "median" then median else mean) lo hi))

/-! ### Fallback orchestrator (`fetch_with_fallback`, source lines 1608-1629) -/

/-- Provider ordering of `fetch_with_fallback`: an explicit non-empty
preferred order is filtered against the enabled provider order; otherwise
the order is rotated (round-robin cursor or fixed start) and truncated to
one provider when fallback-on-failure is disabled.  Returns the chain and
the updated round-robin cursor. -/
def ordered_providers (provider_order : List String) (rotation_mode : String)
    (rr_index : ℕ) (fallback_on_failure : Bool) (preferred_order : List String) :
    List String × ℕ :=
  if preferred_order ≠ [] then
    (preferred_order.filter (fun p => provider_order.contains p), rr_index)
  else
    let n := provider_order.length
    let start := if rotation_mode = "fixed" then 0 else rr_index % n
    let rr' := if rotation_mode = "fixed" then rr_index else (rr_index + 1) % n
    let ordered := provider_order.drop start ++ provider_order.take start
    ((if fallback_on_failure then ordered else ordered.take 1), rr')

/-- `attempts_per_provider = 1 if len(ordered) > 1 else retries` (line 1629). -/
def attempts_per_provider (ordered : List String) (retries : ℕ) : ℕ :=
  if ordered.length > 1 then 1 else retries

/-! ### Apply step (source lines 2005-2014, identical in all three buckets) -/

/-- Outcome of applying one resolved price to one catalog entry. -/
structure ApplyOutcome where
  price : ℚ
  timestamp_set : Bool
  counted_updated : Bool
  counted_unchanged : Bool
  counted_skipped : Bool
deriving DecidableEq

/-- The apply step: update price and timestamp when the absolute difference
is at least 0.01, else refresh only the timestamp; the else-branch
increments both the unchanged and the skipped counters (lines 2012-2014). -/
def apply_result (existing new_price : ℚ) : ApplyOutcome :=
  if |existing - new_price| ≥ 1/100 then
    { price := new_price, timestamp_set := true, counted_updated := true,
      counted_unchanged := false, counted_skipped := false }
  else
    { price := existing, timestamp_set := true, counted_updated := false,
      counted_unchanged := true, counted_skipped := true }

/-! ### Steam price text parsing (source lines 315-344) -/

/-- The non-breaking space ` `. -/
def nbsp : Char := Char.ofNat 160

/-- The regex body class `[\d\s,. ]`. -/
def isPriceBodyChar (c : Char) : Bool :=
  c.isDigit || c.isWhitespace || c = ',' || c = '.' || c = nbsp

/-- `_PRICE_RE.search`: leftmost match of `([-+]?\d[\d\s,. ]*)` — an
optional sign immediately followed by a digit (or a bare digit), then the
greedy body class. -/
def price_re_search : List Char → Option (List Char)
  | [] => none
  | c :: rest =>
    if c = '+' ∨ c = '-' then
      match rest with
      | [] => none
      | d :: rest2 =>
        if d.isDigit then some (c :: d :: rest2.takeWhile isPriceBodyChar)
        else price_re_search rest
    else if c.isDigit then some (c :: rest.takeWhile isPriceBodyChar)
    else price_re_search rest

/-- Value of a digit string (most significant first); empty list is 0,
matching `float(".5")` / `float("5.")`. -/
def digitsVal (l : List Char) : ℕ :=
  l.foldl (fun acc c => acc * 10 + (c.toNat - '0'.toNat)) 0

/-- Char-level part of `float(num)`: optional sign, then digits with at
most one decimal point (any other character fails).  Returns
`(negative, integer digits value, fraction digits value, fraction length)`. -/
def floatParts (l : List Char) : Option (Bool × ℕ × ℕ × ℕ) :=
  let neg : Bool := match l with
    | '-' :: _ => true
    | _ => false
  let body : List Char := match l with
    | '+' :: r => r
    | '-' :: r => r
    | r => r
  if body = [] then none
  else if body.all (fun c => c.isDigit || c = '.') then
    if (body.filter (fun c => c = '.')).length = 0 then
      some (neg, digitsVal body, 0, 0)
    else if (body.filter (fun c => c = '.')).length = 1 then
      let intPart := body.takeWhile (fun c => c ≠ '.')
      let fracPart := (body.dropWhile (fun c => c ≠ '.')).tail
      if intPart = [] ∧ fracPart = [] then none
      else some (neg, digitsVal intPart, digitsVal fracPart, fracPart.length)
    else none
  else none

/-- `float(num)` on the post-processed capture, assembled from `floatParts`. -/
def pyFloatOfChars (l : List Char) : Option ℚ :=
  match floatParts l with
  | none => none
  | some (neg, i, f, k) =>
    some ((if neg then -1 else 1) * ((i : ℚ) + (f : ℚ) / 10 ^ k))

/-- Post-processing of the regex capture: normalize the non-breaking space
to a space, strip, drop spaces, then the comma/dot heuristics (both
present: commas are thousands separators; comma only: comma is the decimal
separator). -/
def normalize_price_chars (captured : List Char) : List Char :=
  let n1 := captured.map (fun c => if c = nbsp then ' ' else c)
  let n2 := trimChars n1
  let n3 := n2.filter (fun c => c ≠ ' ')
  let hasComma := n3.contains ','
  let hasDot := n3.contains '.'
  if hasComma ∧ hasDot then n3.filter (fun c => c ≠ ',')
  else if hasComma then n3.map (fun c => if c = ',' then '.' else c)
  else n3

/-- `parse_price_text_to_float(price_text)`: regex search, normalization,
`float`. -/
def parse_price_text_to_float (price_text : String) : Option ℚ :=
  if price_text = "" then none
  else
    match price_re_search price_text.data with
    | none => none
    | some captured => pyFloatOfChars (normalize_price_chars captured)

/-- `SteamProvider.fetch_cad` success path (source lines 814-827): prefer
`median_price`, fall back to `lowest_price`, round the result.  Non-string
fields are modelled as `none`. -/
def steam_extract_price (median_price lowest_price : Option String) : Option ℚ :=
  let v : Option ℚ := match median_price with
    | some s => parse_price_text_to_float s
    | none => none
  let v : Option ℚ := match v with
    | some x => some x
    | none => match lowest_price with
      | some s => parse_price_text_to_float s
      | none => none
  match v with
  | none => none
  | some x => some (money_round x)

/-! ### CSFloat and FX (source lines 842-955, 1507-1510, 1701) -/

/-- `CSFloatProvider.fetch_usd_lowest` price extraction: the listing's
`price` must be a positive int of cents; result is `cents / 100.0`. -/
def csfloat_extract_usd (cents : Option ℤ) : Option ℚ :=
  match cents with
  | none => none
  | some c => if c ≤ 0 then none else some ((c : ℚ) / 100)

/-- The orchestrator's CSFloat conversion `money_round(usd * usd_to_cad)`
(line 1701). -/
def csfloat_cad (usd usd_to_cad : ℚ) : ℚ := money_round (usd * usd_to_cad)

/-- `BankOfCanadaFx.fetch_usd_to_cad` bound guard: `clamp(rate, 0.5, 5.0)`. -/
def fx_bound (rate : ℚ) : ℚ := clamp rate (1/2) 5

/-- `csfloat_enabled = bool(cfg) and (usd_to_cad is not None)` (line 1508). -/
def csfloat_enabled_for_run (cfg_enabled : Bool) (usd_to_cad : Option ℚ) : Bool :=
  cfg_enabled && usd_to_cad.isSome

/-- A bulk provider's `load_prices` over the already-parsed
`(market_hash_name, price)` pairs of its dump: return the empty map when
the configured currency normalizes to `"USD"` and the FX rate is missing
(e.g. lines 518-521); otherwise convert USD prices (when the rate is
present and nonzero, Python truthiness) and round each value. -/
def bulk_load_prices (currency : String) (usd_to_cad : Option ℚ)
    (entries : List (String × ℚ)) : List (String × ℚ) :=
  let cur := pyStrip (pyUpper currency)
  if cur = "USD" ∧ usd_to_cad = none then []
  else
    entries.map (fun p =>
      (p.1, money_round (match usd_to_cad with
        | some r => if cur = "USD" ∧ r ≠ 0 then p.2 * r else p.2
        | none => p.2)))

/-- Log note emitted for the FX fetch outcome (lines 1342-1345). -/
inductive FxNote where
  | warn_fx_missing
  | info_fx_rate
deriving DecidableEq

/-- A missing FX rate produces a warning, a present one an info line. -/
def fx_note (usd_to_cad : Option ℚ) : FxNote :=
  match usd_to_cad with
  | none => FxNote.warn_fx_missing
  | some _ => FxNote.info_fx_rate

/-- The FX-handling step never returns an exit code: `refresh_once`
proceeds in both branches (lines 1341-1345 contain no `return`/`raise`). -/
def fx_step_exit (usd_to_cad : Option ℚ) : Option ℕ :=
  match usd_to_cad with
  | none => none
  | some _ => none

/-! ### Write events of one refresh run (source lines 2023-2024, 2060-2061,
2079-2093) -/

/-- On-disk effects the claims talk about. -/
inductive WriteEvent where
  | checkpoint
  | skip_ledger
  | backup
  | catalog
deriving DecidableEq

/-- Checkpoint writes of the items loop: `for i, ik in enumerate(item_keys,
start=1): ... if checkpoint_every_items and (i % checkpoint_every_items == 0):
checkpoint_save(prices_path, prices, logger)` — not guarded by `dry_run`. -/
def item_loop_writes (checkpoint_every_items processed : ℕ) : List WriteEvent :=
  (List.range processed).filterMap (fun i0 =>
    if checkpoint_every_items ≠ 0 ∧ (i0 + 1) % checkpoint_every_items = 0 then
      some WriteEvent.checkpoint
    else none)

/-- End-of-run writes (lines 2079-2093): on `dry_run` the function returns
before the skip-ledger save, the backup copy and the catalog write. -/
def final_writes (dry_run : Bool) : List WriteEvent :=
  if dry_run then []
  else [WriteEvent.skip_ledger, WriteEvent.backup, WriteEvent.catalog]

/-- All catalog/skip-ledger/checkpoint writes of one run, as a function of
the dry-run flag, the checkpoint interval, and the number of entries
processed in the items loop. -/
def refresh_run_writes (dry_run : Bool) (checkpoint_every_items processed : ℕ) :
    List WriteEvent :=
  item_loop_writes checkpoint_every_items processed ++ final_writes dry_run

/-! ## Helper lemmas -/

/-- Rounding to two decimals preserves non-negativity. -/
theorem money_round_nonneg {v : ℚ} (h : 0 ≤ v) : 0 ≤ money_round v := by
  unfold money_round
  have h1 : (0 : ℤ) ≤ round (v * 100) := by
    rw [round_eq]
    refine Int.le_floor.mpr ?_
    push_cast
    linarith
  have h2 : (0 : ℚ) ≤ ((round (v * 100) : ℤ) : ℚ) := by exact_mod_cast h1
  positivity

/-! ## Claims -/

/-- C1: the claim states that with `--dry-run` no file write of any kind
occurs, including every periodic checkpoint, regardless of how many entries
are processed.  The code violates this: `checkpoint_save` inside the items
loop is not guarded by `args.dry_run`, so a dry-run that processes a
multiple of `checkpointEveryItems` entries writes the catalog file — even
though the CLI help for `--dry-run` promises not to write `prices.json` and
the run then logs that no files were written.  This theorem evaluates the
write-event model at the failing input (`dry_run`, `checkpointEveryItems=1`,
1 item processed) and at two conforming inputs. -/
theorem C1_dry_run_checkpoint_write :
    refresh_run_writes true 1 1 = [WriteEvent.checkpoint] ∧
    refresh_run_writes true 250 10 = [] ∧
    refresh_run_writes false 0 0 =
      [WriteEvent.skip_ledger, WriteEvent.backup, WriteEvent.catalog] := by
  decide

/-- C10: `aggregate_prices` returns `none` iff the price list is empty; a
non-empty list with any method string other than exactly `"median"` —
including unrecognized spellings — yields the arithmetic mean, and
`"median"` yields the median (average of the two middle values of the
sorted list for even length). -/
theorem C10_aggregate_prices_total (prices : List ℚ) (method : String) :
    (aggregate_prices prices method = none ↔ prices = []) ∧
    (prices ≠ [] → method ≠ "median" →
      aggregate_prices prices method = some (prices.sum / (prices.length : ℚ))) ∧
    (prices ≠ [] →
      aggregate_prices prices "median" =
        some (if (sortAsc prices).length % 2 = 0 then
            ((sortAsc prices).getD ((sortAsc prices).length / 2 - 1) 0 +
             (sortAsc prices).getD ((sortAsc prices).length / 2) 0) / 2
          else (sortAsc prices).getD ((sortAsc prices).length / 2) 0)) := by
  by_cases h : prices = []
  · subst h
    exact ⟨by simp [aggregate_prices], by tauto, by tauto⟩
  · refine ⟨⟨fun hn => ?_, fun h' => absurd h' h⟩, fun _ hm => ?_, fun _ => ?_⟩
    · exfalso
      unfold aggregate_prices at hn
      rw [if_neg h] at hn
      by_cases hm : method = "median"
      · rw [if_pos hm] at hn
        dsimp only at hn
        by_cases hp : (sortAsc prices).length % 2 = 0
        · rw [if_pos hp] at hn; exact Option.some_ne_none _ hn
        · rw [if_neg hp] at hn; exact Option.some_ne_none _ hn
      · rw [if_neg hm] at hn; exact Option.some_ne_none _ hn
    · unfold aggregate_prices
      rw [if_neg h, if_neg hm]
    · unfold aggregate_prices
      rw [if_neg h, if_pos rfl]
      dsimp only
      by_cases hp : (sortAsc prices).length % 2 = 0
      · rw [if_pos hp, if_pos hp]
      · rw [if_neg hp, if_neg hp]

/-- C10 witness: a capitalized method name "Median" silently falls back to
the mean: `aggregate_prices [1, 2] "Median" = some 1.5`. -/
theorem C10_aggregate_prices_witness :
    aggregate_prices [1, 2] "Median" = some (3/2) := by
  have h := (C10_aggregate_prices_total [1, 2] "Median").2.1 (by decide) (by decide)
  rw [h]
  norm_num

/-- C3: for every market name and the multiset of bulk-source prices found
for it, `bulk_price_for` returns no consensus when fewer than
`agg_min_sources` bulk sources carry the name, and otherwise the mean or
median (per method; even-length median averages the two middle values of
the sorted list), clamped to the configured bounds and rounded to two
decimals — stated as equality with `consensus_spec`, the definition written
from the spec's words.  The hypothesis `1 ≤ agg_min_sources` mirrors
`agg_min_sources = max(1, ...)` in `refresh_once`. -/
theorem C3_bulk_aggregator (bulk_sources : List (List (String × ℚ)))
    (agg_min_sources : ℕ) (method : String) (lo hi : ℚ) (market_hash : String)
    (h : 1 ≤ agg_min_sources) :
    bulk_price_for bulk_sources agg_min_sources method lo hi market_hash =
      (consensus_spec (bulk_lookup_vals bulk_sources market_hash)
          agg_min_sources method lo hi,
       (bulk_lookup_vals bulk_sources market_hash).length) := by
  unfold bulk_price_for consensus_spec
  set vals := bulk_lookup_vals bulk_sources market_hash with hv
  by_cases hlt : vals.length < agg_min_sources
  · rw [if_pos hlt, if_pos hlt]
  · have hne : vals ≠ [] := by
      intro h0
      rw [h0] at hlt
      simp only [List.length_nil] at hlt
      omega
    rw [if_neg hlt, if_neg hlt]
    unfold aggregate_prices
    rw [if_neg hne]
    dsimp only
    by_cases hm : method = "median"
    · rw [if_pos hm, if_pos hm]
      by_cases hp : (sortAsc vals).length % 2 = 0
      · rw [if_pos hp, if_pos hp]
      · rw [if_neg hp, if_neg hp]
    · rw [if_neg hm, if_neg hm]

/-- C3 witness: a name carried by exactly one of two bulk sources yields no
consensus with `minSources = 2`; carried by both, the median 15 of
`[10, 20]` survives clamping and rounding. -/
theorem C3_bulk_aggregator_witness :
    bulk_price_for [[("AK", 10)], [("Key", 7)]] 2 "median" (1/100) (9999999/100) "AK" =
      (none, 1) ∧
    bulk_price_for [[("AK", 10)], [("AK", 20)]] 2 "median" (1/100) (9999999/100) "AK" =
      (some 15, 2) := by
  have hv1 : bulk_lookup_vals [[("AK", 10)], [("Key", 7)]] "AK" = [10] := by
    simp [bulk_lookup_vals, List.lookup]
  have hv2 : bulk_lookup_vals [[("AK", 10)], [("AK", 20)]] "AK" = [10, 20] := by
    simp [bulk_lookup_vals, List.lookup]
  constructor
  · have h := C3_bulk_aggregator [[("AK", 10)], [("Key", 7)]] 2 "median"
      (1/100) (9999999/100) "AK" (by norm_num)
    rw [h, hv1]
    rw [consensus_spec]
    norm_num
  · have h := C3_bulk_aggregator [[("AK", 10)], [("AK", 20)]] 2 "median"
      (1/100) (9999999/100) "AK" (by norm_num)
    rw [h, hv2]
    rw [consensus_spec]
    norm_num [sortAsc, insertSorted, clamp, money_round, round_eq]

/-- C4 counterexample: the claim says an entry whose candidate differs by
less than 0.01 is counted as "unchanged" and *not* as "skipped", but the
code's else-branch increments both counters: at existing price 5.00 and
candidate 5.004 (= 1251/250) the entry is counted unchanged *and* skipped. -/
theorem C4_counterexample :
    (apply_result 5 (1251/250)).counted_unchanged = true ∧
    ¬ (apply_result 5 (1251/250)).counted_skipped = false := by
  have hlt : ¬ (|(5 : ℚ) - 1251/250| ≥ 1/100) := by
    rw [not_le, abs_lt]
    constructor <;> norm_num
  unfold apply_result
  rw [if_neg hlt]
  exact ⟨rfl, by simp⟩

/-- C4 (amended): if the resolved price differs from the existing one by at
least 0.01, the stored price becomes the new one, the timestamp is set and
the entry counts as updated; otherwise the price stays, only the timestamp
is refreshed, and the entry counts as unchanged — and additionally the
skipped counter is incremented. -/
theorem C4_price_change_threshold (existing q : ℚ) :
    (|existing - q| ≥ 1/100 →
      apply_result existing q =
        { price := q, timestamp_set := true, counted_updated := true,
          counted_unchanged := false, counted_skipped := false }) ∧
    (|existing - q| < 1/100 →
      apply_result existing q =
        { price := existing, timestamp_set := true, counted_updated := false,
          counted_unchanged := true, counted_skipped := true }) := by
  unfold apply_result
  constructor
  · intro h
    rw [if_pos h]
  · intro h
    rw [if_neg (not_le.mpr h)]

/-- C4 witness: candidate 5.02 updates the price; candidate 5.004 keeps it
and only refreshes the timestamp. -/
theorem C4_price_change_threshold_witness :
    apply_result 5 (251/50) =
      { price := 251/50, timestamp_set := true, counted_updated := true,
        counted_unchanged := false, counted_skipped := false } ∧
    apply_result 5 (1251/250) =
      { price := 5, timestamp_set := true, counted_updated := false,
        counted_unchanged := true, counted_skipped := true } := by
  constructor
  · refine (C4_price_change_threshold 5 (251/50)).1 ?_
    rw [ge_iff_le, le_abs]
    right
    norm_num
  · refine (C4_price_change_threshold 5 (1251/250)).2 ?_
    rw [abs_lt]
    constructor <;> norm_num

/-- C5 counterexample: the claim says each provider consulted in a chain of
more than one provider is attempted with `retries` live-fetch attempts, but
`attempts_per_provider = 1 if len(ordered) > 1 else retries`: with the
fallback pass's explicit three-provider chain and `retries = 3`, each
provider gets exactly 1 attempt, not 3. -/
theorem C5_counterexample :
    (ordered_providers ["skinport", "steam", "csfloat"] "round_robin" 0 true
        ["skinport", "csfloat", "steam"]).1.length = 3 ∧
    attempts_per_provider
      (ordered_providers ["skinport", "steam", "csfloat"] "round_robin" 0 true
        ["skinport", "csfloat", "steam"]).1 3 = 1 ∧
    (1 : ℕ) ≠ 3 := by
  decide

/-- C5 (amended): when fallback-on-failure is disabled, only the first
provider of the rotated order is tried (the chain is the one-element
truncation of the enabled chain); each provider of a chain of more than one
provider gets exactly one live-fetch attempt, while a single-provider chain
exhausts all `retries` on that provider; within a provider, retry attempt
`a` sleeps a jittered backoff of `backoff * a` within ±15 percent. -/
theorem C5_fallback_orchestrator (provider_order ordered : List String)
    (rotation_mode : String) (rr_index retries : ℕ) (b u : ℚ) (a : ℕ) :
    ((ordered_providers provider_order rotation_mode rr_index false []).1 =
      ((ordered_providers provider_order rotation_mode rr_index true []).1).take 1) ∧
    (ordered.length > 1 → attempts_per_provider ordered retries = 1) ∧
    (ordered.length ≤ 1 → attempts_per_provider ordered retries = retries) ∧
    (0 ≤ b * (a : ℚ) → |u| ≤ 15/100 * (b * (a : ℚ)) →
      jitter (b * (a : ℚ)) u = b * (a : ℚ) + u ∧
      |jitter (b * (a : ℚ)) u - b * (a : ℚ)| ≤ 15/100 * (b * (a : ℚ))) := by
  refine ⟨?_, ?_, ?_, ?_⟩
  · simp [ordered_providers]
  · intro h
    unfold attempts_per_provider
    rw [if_pos h]
  · intro h
    unfold attempts_per_provider
    rw [if_neg (by omega)]
  · intro hba hu
    have h1 : -(15/100 * (b * (a : ℚ))) ≤ u := (abs_le.mp hu).1
    have h2 : 0 ≤ b * (a : ℚ) + u := by linarith
    have hj : jitter (b * (a : ℚ)) u = b * (a : ℚ) + u := max_eq_right h2
    refine ⟨hj, ?_⟩
    rw [hj]
    simpa using hu

/-- C5 witness: a single-provider chain gets all 3 retries, a two-provider
chain gets 1 attempt each, a disabled-fallback rotation is truncated to one
provider, and the jittered backoff `2 * 3 ± 0.5` evaluates inside the ±15
percent band. -/
theorem C5_fallback_orchestrator_witness :
    attempts_per_provider ["steam"] 3 = 3 ∧
    attempts_per_provider ["skinport", "steam"] 3 = 1 ∧
    (ordered_providers ["skinport", "steam", "csfloat"] "round_robin" 1 false []).1 =
      ["steam"] ∧
    jitter (2 * ((3 : ℕ) : ℚ)) (1/2) = 13/2 := by
  refine ⟨?_, ?_, ?_, ?_⟩
  · exact (C5_fallback_orchestrator [] ["steam"] "round_robin" 0 3 0 0 0).2.2.1
      (by norm_num)
  · exact (C5_fallback_orchestrator [] ["skinport", "steam"] "round_robin" 0 3 0 0 0).2.1
      (by norm_num)
  · have h := (C5_fallback_orchestrator ["skinport", "steam", "csfloat"] []
      "round_robin" 1 3 0 0 0).1
    rw [h]
    decide
  · have h := (C5_fallback_orchestrator [] [] "round_robin" 0 3 2 (1/2) 3).2.2.2
      (by norm_num) (by rw [abs_le]; constructor <;> norm_num)
    rw [h.1]
    norm_num

/-- C7: a composite item key that does not split into exactly four
pipe-separated parts is rejected; when the wear is meaningful, the
synthesized market name is the display name followed by the
parenthesized wear, prefixed by "StatTrak™ " exactly when the StatTrak
flag is set; the two concrete scenarios from the spec evaluate as stated. -/
theorem C7_item_key_resolution :
    (∀ k : String, (pySplitPipe k).length ≠ 4 → parse_item_key k = none) ∧
    (∀ dn w : String, ∀ st : Bool,
      w ≠ "" → pyLower w ≠ "none" → pyLower w ≠ "na" → pyLower w ≠ "n/a" →
      build_item_market_hash dn w st =
        (if st then "StatTrak™ " else "") ++ dn ++ " (" ++ w ++ ")") ∧
    (parse_item_key "ak47-redline|Field-Tested|0|None" =
      some ("ak47-redline", "Field-Tested", false, "None")) ∧
    (build_item_market_hash "AK-47 | Redline" "Field-Tested" false =
      "AK-47 | Redline (Field-Tested)") ∧
    (parse_item_key "ak47-redline|Field-Tested|1|None" =
      some ("ak47-redline", "Field-Tested", true, "None")) ∧
    (build_item_market_hash "AK-47 | Redline" "Field-Tested" true =
      "StatTrak™ AK-47 | Redline (Field-Tested)") := by
  refine ⟨?_, ?_, by decide, by decide, by decide, by decide⟩
  · intro k hk4
    unfold parse_item_key
    by_cases hk : k = ""
    · rw [if_pos hk]
    · rw [if_neg hk, if_pos hk4]
  · intro dn w st h1 h2 h3 h4
    unfold build_item_market_hash
    rw [if_pos ⟨h1, by tauto⟩]

/-- C7 witness: a two-part key is malformed, and the StatTrak name formula
applied to the spec's scenario yields the expected market name. -/
theorem C7_item_key_resolution_witness :
    parse_item_key "a|b" = none ∧
    build_item_market_hash "AK-47 | Redline" "Field-Tested" true =
      "StatTrak™ AK-47 | Redline (Field-Tested)" := by
  constructor
  · exact C7_item_key_resolution.1 "a|b" (by decide)
  · have h := C7_item_key_resolution.2.1 "AK-47 | Redline" "Field-Tested" true
      (by decide) (by decide) (by decide) (by decide)
    rw [h]
    decide

/-- C2: for an enabled provider, once consecutive hard failures reach the
configured threshold, `is_available` is false strictly before
`cooldown_until = now + cooldownSeconds` and true at or after it, at which
point the cooldown and the hard-failure counter reset; a provider with skip
rounds remaining is still available but `should_skip_round` returns true and
decrements once per remaining round; `record_failure(k)` sets the skip
counter to `max(current, k)` (the current counter is never negative, per
`max(0, ·)` and the initial value 0). -/
theorem C2_provider_state_machine (s : ProviderState) (now_ts cooldown_seconds : ℚ)
    (fail_threshold : ℤ)
    (h_en : s.enabled = true)
    (h_cd : 0 < now_ts + cooldown_seconds)
    (h_th : fail_threshold ≤ s.consecutive_hard_failures + 1)
    (h_sk : 0 ≤ s.skip_rounds_remaining) :
    ((s.record_hard_failure now_ts fail_threshold cooldown_seconds).cooldown_until =
      now_ts + cooldown_seconds) ∧
    ((s.record_hard_failure now_ts fail_threshold cooldown_seconds).consecutive_hard_failures
      = 0) ∧
    (∀ t : ℚ, t < now_ts + cooldown_seconds →
      ((s.record_hard_failure now_ts fail_threshold cooldown_seconds).is_available t).1
        = false) ∧
    (∀ t : ℚ, now_ts + cooldown_seconds ≤ t →
      ((s.record_hard_failure now_ts fail_threshold cooldown_seconds).is_available t).1
        = true ∧
      ((s.record_hard_failure now_ts fail_threshold cooldown_seconds).is_available
        t).2.cooldown_until = 0 ∧
      ((s.record_hard_failure now_ts fail_threshold cooldown_seconds).is_available
        t).2.consecutive_hard_failures = 0) ∧
    (0 < s.skip_rounds_remaining → s.cooldown_until ≤ 0 →
      (s.is_available now_ts).1 = true) ∧
    (0 < s.skip_rounds_remaining →
      s.should_skip_round.1 = true ∧
      s.should_skip_round.2.skip_rounds_remaining = s.skip_rounds_remaining - 1) ∧
    (s.skip_rounds_remaining ≤ 0 → s.should_skip_round.1 = false) ∧
    (∀ k : ℤ, (s.record_failure k).skip_rounds_remaining =
      max s.skip_rounds_remaining k) ∧
    s.record_success.consecutive_hard_failures = 0 := by
  have hs' : s.record_hard_failure now_ts fail_threshold cooldown_seconds =
      { s with cooldown_until := now_ts + cooldown_seconds,
               consecutive_hard_failures := 0 } := by
    unfold ProviderState.record_hard_failure
    dsimp only
    rw [if_pos h_th]
  refine ⟨?_, ?_, ?_, ?_, ?_, ?_, ?_, ?_, ?_⟩
  · rw [hs']
  · rw [hs']
  · intro t ht
    rw [hs']
    unfold ProviderState.is_available
    rw [if_neg (by simp [h_en]), if_neg (by dsimp only; linarith),
      if_neg (by dsimp only; linarith)]
  · intro t ht
    rw [hs']
    unfold ProviderState.is_available
    rw [if_neg (by simp [h_en]), if_neg (by dsimp only; linarith),
      if_pos (by dsimp only; linarith)]
    exact ⟨rfl, rfl, rfl⟩
  · intro _ hcz
    unfold ProviderState.is_available
    rw [if_neg (by simp [h_en]), if_pos hcz]
  · intro hpos
    unfold ProviderState.should_skip_round
    rw [if_pos hpos]
    exact ⟨rfl, rfl⟩
  · intro hz
    unfold ProviderState.should_skip_round
    rw [if_neg (by omega)]
  · intro k
    unfold ProviderState.record_failure
    dsimp only
    rw [← max_assoc, max_eq_left h_sk]
  · rfl

/-- C2 witness: an enabled provider with 0 hard failures and 2 skip rounds,
threshold 1, cooling down at time 100 for 120 seconds: unavailable at 150,
available again at 220 with the counter reset; `should_skip_round`
consumes a round; `record_failure 5` raises the skip counter to 5. -/
theorem C2_provider_state_machine_witness :
    (((ProviderState.mk "Steam" true 0 0 2).record_hard_failure 100 1 120).is_available
      150).1 = false ∧
    (((ProviderState.mk "Steam" true 0 0 2).record_hard_failure 100 1 120).is_available
      220).1 = true ∧
    (((ProviderState.mk "Steam" true 0 0 2).record_hard_failure 100 1 120).is_available
      220).2.consecutive_hard_failures = 0 ∧
    (ProviderState.mk "Steam" true 0 0 2).should_skip_round.1 = true ∧
    ((ProviderState.mk "Steam" true 0 0 2).record_failure 5).skip_rounds_remaining = 5 := by
  have h := C2_provider_state_machine ⟨"Steam", true, 0, 0, 2⟩ 100 120 1 rfl
    (by norm_num) (by norm_num) (by norm_num)
  refine ⟨h.2.2.1 150 (by norm_num), (h.2.2.2.1 220 (by norm_num)).1,
    (h.2.2.2.1 220 (by norm_num)).2.2, (h.2.2.2.2.2.1 (by norm_num)).1, ?_⟩
  rw [h.2.2.2.2.2.2.2.1 5]
  exact max_eq_right (by norm_num)

/-- C6: the staleness gate selects an entry iff `force` is set, or its
existing price is at or below the configured always-refresh threshold, or
its timestamp is missing or unparsable, or its age in hours is at least the
maximum age; `maxAgeDays` takes precedence over `maxAgeHours` as
`hours = days * 24`. -/
theorem C6_staleness_gate (u : Option (Option ℚ)) (mah mah_cfg : ℚ) (force : Bool)
    (ep fpt : Option ℚ) (now : ℚ) :
    (should_refresh u mah force ep fpt now = true ↔
      force = true ∨
      (∃ th p, fpt = some th ∧ ep = some p ∧ p ≤ th) ∨
      u = none ∨ u = some none ∨
      (∃ dt, u = some (some dt) ∧ mah ≤ (now - dt) / 3600)) ∧
    (∀ d : ℚ, 0 ≤ d → effective_max_age_hours (some d) mah_cfg = d * 24) ∧
    effective_max_age_hours none mah_cfg = max 0 mah_cfg := by
  refine ⟨?_, ?_, rfl⟩
  · unfold should_refresh threshold_hit
    cases force with
    | true => simp
    | false =>
      rcases fpt with _ | th <;> rcases ep with _ | p <;> rcases u with _ | _ | dt <;>
        simp
  · intro d hd
    unfold effective_max_age_hours
    exact max_eq_right (mul_nonneg hd (by norm_num))

/-- C6 witness: an entry last updated at epoch 1000 checked at epoch 87400
with a 24-hour maximum age is selected (age exactly 24h), and
`maxAgeDays = 2` gives 48 effective hours. -/
theorem C6_staleness_gate_witness :
    should_refresh (some (some 1000)) 24 false (some 5) (some 1) 87400 = true ∧
    effective_max_age_hours (some 2) 5 = 48 := by
  have h := C6_staleness_gate (some (some 1000)) 24 5 false (some 5) (some 1) 87400
  constructor
  · exact h.1.mpr (Or.inr (Or.inr (Or.inr (Or.inr ⟨1000, rfl, by norm_num⟩))))
  · rw [h.2.1 2 (by norm_num)]
    norm_num

/-- C8: with no FX rate for the run, the CSFloat live provider is disabled,
every bulk provider whose configured currency normalizes to "USD" loads an
empty price map, a native-currency bulk provider still loads its (rounded)
price map unchanged, and the FX step emits a warning and produces no
failure exit code. -/
theorem C8_fx_missing (cfg_enabled : Bool) (cur : String)
    (entries : List (String × ℚ)) :
    csfloat_enabled_for_run cfg_enabled none = false ∧
    (pyStrip (pyUpper cur) = "USD" → bulk_load_prices cur none entries = []) ∧
    (pyStrip (pyUpper cur) ≠ "USD" →
      bulk_load_prices cur none entries =
        entries.map (fun p => (p.1, money_round p.2))) ∧
    fx_note none = FxNote.warn_fx_missing ∧
    fx_step_exit none = none := by
  refine ⟨?_, ?_, ?_, rfl, rfl⟩
  · simp [csfloat_enabled_for_run]
  · intro hu
    unfold bulk_load_prices
    rw [if_pos ⟨hu, rfl⟩]
  · intro hu
    unfold bulk_load_prices
    dsimp only
    rw [if_neg (by tauto)]

/-- C8 witness: currency "usd " (normalizing to "USD") with a missing FX
rate yields an empty bulk map and a disabled CSFloat provider, while a
"CAD" bulk source keeps its entries. -/
theorem C8_fx_missing_witness :
    bulk_load_prices "usd " none [("AK-47 | Redline (Field-Tested)", 2)] = [] ∧
    csfloat_enabled_for_run true none = false ∧
    bulk_load_prices "CAD" none [("Key", 3)] = [("Key", money_round 3)] := by
  refine ⟨?_, ?_, ?_⟩
  · exact (C8_fx_missing true "usd " [("AK-47 | Redline (Field-Tested)", 2)]).2.1
      (by decide)
  · exact (C8_fx_missing true "usd " []).1
  · exact (C8_fx_missing true "CAD" [("Key", 3)]).2.2.1 (by decide)

/-- C9 counterexample: the claim says every price stored by the apply step
is non-negative, but the Steam price-text parser accepts a leading sign:
the price text "-5.00 CAD" parses to -5.00, survives the Steam extraction
path, and the apply step stores it (|5 - (-5)| ≥ 0.01), leaving a negative
price in the catalog. -/
theorem C9_counterexample :
    steam_extract_price (some "-5.00 CAD") none = some (-5) ∧
    (apply_result 5 (-5)).price = -5 ∧
    ¬ (0 ≤ (apply_result 5 (-5)).price) := by
  have hp : parse_price_text_to_float "-5.00 CAD" = some (-5) := by
    have h1 : price_re_search "-5.00 CAD".data =
        some ['-', '5', '.', '0', '0', ' '] := by decide
    have h2 : normalize_price_chars ['-', '5', '.', '0', '0', ' '] =
        ['-', '5', '.', '0', '0'] := by decide
    have h3 : floatParts ['-', '5', '.', '0', '0'] = some (true, 5, 0, 2) := by decide
    unfold parse_price_text_to_float
    rw [if_neg (by decide : ¬ ("-5.00 CAD" = "")), h1]
    dsimp only
    rw [h2]
    unfold pyFloatOfChars
    rw [h3]
    dsimp only
    norm_num
  have habs : |(5 : ℚ) - (-5)| ≥ 1/100 := by
    rw [ge_iff_le, le_abs]
    left
    norm_num
  refine ⟨?_, ?_, ?_⟩
  · unfold steam_extract_price
    dsimp only
    rw [hp]
    dsimp only
    norm_num [money_round, round_eq]
  · unfold apply_result
    rw [if_pos habs]
  · unfold apply_result
    rw [if_pos habs]
    norm_num

/-- C9 (amended): the apply step always records a timestamp, an updated
entry stores exactly the resolved price, and the stored price is
non-negative whenever the existing and resolved prices are; resolved prices
from the CSFloat path (positive cents, non-negative FX rate) and from the
bulk aggregator (non-negative clamp minimum) are always non-negative —
but a Steam/Skinport price text that parses to a negative number is stored
as-is (see the counterexample). -/
theorem C9_apply_invariants (existing q usd fx lo hi : ℚ) (c : ℤ)
    (bulk_sources : List (List (String × ℚ))) (min_sources : ℕ)
    (method mh : String) :
    (apply_result existing q).timestamp_set = true ∧
    ((apply_result existing q).counted_updated = true →
      (apply_result existing q).price = q) ∧
    (0 ≤ existing → 0 ≤ q → 0 ≤ (apply_result existing q).price) ∧
    (0 ≤ usd → 0 ≤ fx → 0 ≤ csfloat_cad usd fx) ∧
    (∀ r : ℚ, csfloat_extract_usd (some c) = some r → 0 < r) ∧
    (0 ≤ lo → ∀ v : ℚ,
      (bulk_price_for bulk_sources min_sources method lo hi mh).1 = some v →
      0 ≤ v) := by
  refine ⟨?_, ?_, ?_, ?_, ?_, ?_⟩
  · unfold apply_result
    split <;> rfl
  · unfold apply_result
    split
    · intro _; rfl
    · intro hup; simp at hup
  · intro h1 h2
    unfold apply_result
    split
    · exact h2
    · exact h1
  · intro h1 h2
    unfold csfloat_cad
    exact money_round_nonneg (mul_nonneg h1 h2)
  · intro r hr
    unfold csfloat_extract_usd at hr
    dsimp only at hr
    by_cases hc : c ≤ 0
    · rw [if_pos hc] at hr
      exact absurd hr (by simp)
    · rw [if_neg hc] at hr
      have hrc : r = (c : ℚ) / 100 := by
        injection hr with h
        exact h.symm
      rw [hrc]
      have hcq : (0 : ℚ) < (c : ℚ) := by
        exact_mod_cast (by omega : (0 : ℤ) < c)
      positivity
  · intro hlo v hv
    unfold bulk_price_for at hv
    by_cases hlt : (bulk_lookup_vals bulk_sources mh).length < min_sources
    · rw [if_pos hlt] at hv
      exact absurd hv (by simp)
    · rw [if_neg hlt] at hv
      rcases hagg : aggregate_prices (bulk_lookup_vals bulk_sources mh) method
        with _ | agg
      · rw [hagg] at hv
        exact absurd hv (by simp)
      · rw [hagg] at hv
        dsimp only at hv
        have hv2 : v = money_round (clamp agg lo hi) := by
          injection hv with h
          exact h.symm
        rw [hv2]
        refine money_round_nonneg ?_
        unfold clamp
        exact le_trans hlo (le_max_left _ _)

/-- C9 witness: an unchanged apply step keeps a non-negative price, a
CSFloat conversion of 0.50 USD at rate 1.35 is non-negative, and 700 cents
extract to the positive price 7.00. -/
theorem C9_apply_invariants_witness :
    0 ≤ (apply_result 5 3).price ∧
    0 ≤ csfloat_cad (1/2) (27/20) ∧
    (0 : ℚ) < 7 := by
  have h := C9_apply_invariants 5 3 (1/2) (27/20) (1/100) (9999999/100) 700 [] 2
    "mean" "AK"
  have hex : csfloat_extract_usd (some 700) = some 7 := by
    unfold csfloat_extract_usd
    dsimp only
    rw [if_neg (by norm_num : ¬ ((700 : ℤ) ≤ 0)),
      show ((700 : ℤ) : ℚ) / 100 = 7 by norm_num]
  exact ⟨h.2.2.1 (by norm_num) (by norm_num), h.2.2.2.1 (by norm_num) (by norm_num),
    h.2.2.2.2.1 7 hex⟩

end TCSGO
